import Mathlib

/-
Verification of the reana-job-controller sources (app.py, k8s.py).

The Python code is shallowly embedded:
  - Python dicts holding heterogeneous JSON-like values (the records stored
    in JOB_DB and rendered by the HTTP layer) are association lists
    `List (String × Value)`;
  - the reconciler loops `watch_jobs` / `watch_pods` are embedded as
    per-event step functions over a typed job table; the blocking polling
    waits inside the DELETED branch of `watch_jobs` are given the sequence
    of values they would observe as explicit arguments;
  - backend calls (pod/workload deletion, log fetches) are returned as an
    explicit effect list instead of being performed.
-/

/-! ## Python dict model (records as stored in JOB_DB and rendered to JSON) -/

/-- JSON-like values stored in a job record dict. `vPod` stands for a pykube
Pod object stored under the `pod` key, `vObj` for the pykube Job handle
stored under the `obj` key. -/
inductive Value where
  | vStr (s : String)
  | vNat (n : Nat)
  | vBool (b : Bool)
  | vStrList (l : List String)
  | vPod (podName : String)
  | vObj (handle : String)
deriving DecidableEq, Repr

/-- Python truthiness of a stored value: empty strings, zero, False and empty
lists are falsy; pykube objects are always truthy. -/
def truthy : Value → Bool
  | .vStr s => s ≠ ""
  | .vNat n => n ≠ 0
  | .vBool b => b
  | .vStrList l => l ≠ []
  | .vPod _ => true
  | .vObj _ => true

/-- Association-list lookup, modelling `d.get(k)` / `k in d`. -/
def alookup {α : Type} (k : String) : List (String × α) → Option α
  | [] => none
  | (k₁, v) :: rest => if k₁ = k then some v else alookup k rest

/-- Association-list assignment, modelling `d[k] = v` (replaces an existing
binding, otherwise appends). -/
def aset {α : Type} (k : String) (v : α) : List (String × α) → List (String × α)
  | [] => [(k, v)]
  | (k₁, v₁) :: rest => if k₁ = k then (k, v) :: rest else (k₁, v₁) :: aset k v rest

/-- In-place update of the value bound to `k`, modelling `d[k]['field'] = ...`
style mutation of a nested record. Absent keys are left untouched. -/
def amodify {α : Type} (k : String) (f : α → α) : List (String × α) → List (String × α)
  | [] => []
  | (k₁, v) :: rest => if k₁ = k then (k₁, f v) :: rest else (k₁, v) :: amodify k f rest

/-- Deletion of a key, modelling `del d[k]`. -/
def adel {α : Type} (k : String) (d : List (String × α)) : List (String × α) :=
  d.filter (fun kv => kv.1 ≠ k)

/-- A job record as stored in JOB_DB, at the granularity the HTTP layer sees:
a dict of string keys. -/
abbrev RecordDict := List (String × Value)

/-! ## app.py: filter_jobs, get_job, create_job -/

/-- Body of `filter_jobs` for one record (also the inline code of `get_job`):
delete `obj` and `deleted`, and delete `pod` if present and truthy
(`if job_db_copy[job_name].get('pod'): del ...`). -/
def filter_record (rec : RecordDict) : RecordDict :=
  let r₁ := adel "obj" rec
  let r₂ := adel "deleted" r₁
  match alookup "pod" r₂ with
  | some v => if truthy v then adel "pod" r₂ else r₂
  | none => r₂

/-- app.py `filter_jobs`: a deep copy of the whole table with internal-only
fields stripped from every record. -/
def filter_jobs (job_db : List (String × RecordDict)) : List (String × RecordDict) :=
  job_db.map (fun p => (p.1, filter_record p.2))

/-- Result of `GET /jobs/(job_id)`. -/
inductive GetJobResult where
  | ok (job : RecordDict)
  | notFound
deriving DecidableEq, Repr

/-- app.py `get_job`: look the id up in JOB_DB; on a hit, deep-copy the record,
delete `obj` and `deleted`, delete `pod` when truthy, and return it; else 404. -/
def get_job (job_db : List (String × RecordDict)) (job_id : String) : GetJobResult :=
  match alookup job_id job_db with
  | some rec =>
    let job_copy₁ := adel "obj" rec
    let job_copy₂ := adel "deleted" job_copy₁
    match alookup "pod" job_copy₂ with
    | some v => if truthy v then .ok (adel "pod" job_copy₂) else .ok job_copy₂
    | none => .ok job_copy₂
  | none => .notFound

/-- Outcome of `POST /jobs`. `uncaughtTypeError` is an exception escaping the
view function, which Flask turns into an HTTP 500. -/
inductive CreateResult where
  | badRequest
  | uncaughtTypeError
  | allocFailed
  | created (job_id : String)
deriving DecidableEq, Repr

/-- Number of parameters of `k8s.instantiate_job` as defined in k8s.py:
`def instantiate_job(job_manifest)`. -/
def instantiate_job_paramCount : Nat := 1

/-- Number of arguments `create_job` passes at its call site in app.py:
six positional arguments plus the keyword argument `shared_file_system`. -/
def create_job_callArgCount : Nat := 7

/-- The call `instantiate_job(job_id, docker_img, cmd, cvmfs_repos, env_vars,
experiment, shared_file_system=True)` made by app.py. `backendAnswer` is what
the backend would return were the call well-formed (`some handle` on success,
`none` when pykube raises HTTPError and `instantiate_job` returns None); the
call raises TypeError before reaching the backend whenever the arities
disagree. -/
def instantiate_job_call (backendAnswer : Option String) : Except Unit (Option String) :=
  if create_job_callArgCount = instantiate_job_paramCount then .ok backendAnswer
  else .error ()

/-- The record inserted into JOB_DB by `create_job` on the success path:
a deep copy of the request JSON extended with the bookkeeping fields. -/
def mkJobRecord (reqJson : RecordDict) (job_id : String) (objHandle : String) : RecordDict :=
  aset "deleted" (.vBool false)
    (aset "obj" (.vObj objHandle)
      (aset "max_restart_count" (.vNat 3)
        (aset "restart_count" (.vNat 0)
          (aset "status" (.vStr "started")
            (aset "job-id" (.vStr job_id) reqJson)))))

/-- app.py `create_job`: abort(400) when the body is falsy or `experiment` or
`docker-img` is missing; otherwise call `instantiate_job` (whose call site
raises TypeError, see `instantiate_job_call`); on a handle, insert the new
record and answer 201, on None answer 500. -/
def create_job (job_db : List (String × RecordDict)) (reqJson : RecordDict)
    (job_id : String) (backendAnswer : Option String) :
    CreateResult × List (String × RecordDict) :=
  if reqJson = [] ∨ alookup "experiment" reqJson = none ∨ alookup "docker-img" reqJson = none then
    (.badRequest, job_db)
  else
    match instantiate_job_call backendAnswer with
    | .error _ => (.uncaughtTypeError, job_db)
    | .ok (some handle) => (.created job_id, aset job_id (mkJobRecord reqJson job_id handle) job_db)
    | .ok none => (.allocFailed, job_db)

/-! ## k8s.py: the reconciler state model -/

/-- The `status` field of a job record: `started` at creation, then set by the
reconcilers to `succeeded` or `failed`. -/
inductive JobStatus where
  | started
  | succeeded
  | failed
deriving DecidableEq, Repr

/-- Reference to a pod, stored under the `pod` key of a record. -/
structure PodRef where
  name : String
deriving DecidableEq, Repr

/-- A job record at the granularity the reconcilers touch it. The `obj`
backend handle is identified by the job name (it is only ever used to issue
`obj.delete()`). -/
structure JobRecord where
  status : JobStatus
  deleted : Bool
  pod : Option PodRef
  restart_count : Nat
  max_restart_count : Nat
  log : Option String
deriving DecidableEq, Repr

/-- The shared JOB_DB, keyed by job name. -/
abbrev JobDB := List (String × JobRecord)

/-- Backend calls a reconciler step issues, in program order. -/
inductive Effect where
  | deleteWorkload (jobName : String)
  | deletePod (pod : PodRef)
  | fetchLogs (pod : PodRef)
deriving DecidableEq, Repr

/-- Kubernetes watch event kinds. -/
inductive WatchEventType where
  | added
  | modified
  | deleted
deriving DecidableEq, Repr

/-- A workload (Job) event as consumed by `watch_jobs`: the event type, the
job name, and the truthiness of `job.obj['status'].get('succeeded')` and
`.get('failed')`. -/
structure JobEvent where
  typ : WatchEventType
  name : String
  succeededFlag : Bool
  failedFlag : Bool
deriving DecidableEq, Repr

/-- First pod reference observed by the polling loop
`while not job_db[job.name].get('pod'): time.sleep(5)`: the loop exits at the
first truthy read. -/
def firstAttached : List (Option PodRef) → Option PodRef
  | [] => none
  | some p :: _ => some p
  | none :: rest => firstAttached rest

/-- One iteration of the `watch_jobs` event loop (k8s.py lines 157-188).
`podPolls` is the sequence of values the loop would observe for
`job_db[job.name].get('pod')` while polling (the pod loop may attach the
reference concurrently), and `existsPolls` the sequence of `job.exists()`
answers; if the pod is never observed, or the workload never reported gone,
the loop blocks forever, which the embedding renders as no mutation and no
effect. By the first-write-wins discipline on the `pod` key, the reference
read back for `job_db[job.name]['pod'].delete()` is the first one observed.
Note that `unended_jobs` filters on the `deleted` flag only, not on status. -/
def processJobEvent (db : JobDB) (ev : JobEvent)
    (podPolls : List (Option PodRef)) (existsPolls : List Bool) : JobDB × List Effect :=
  match alookup ev.name db with
  | none => (db, [])
  | some rec =>
    if rec.deleted then (db, [])
    else if ev.typ = .deleted then
      match firstAttached podPolls with
      | none => (db, [])
      | some p =>
        if existsPolls.contains false then
          (amodify ev.name (fun r => { r with deleted := true }) db, [.deletePod p])
        else (db, [])
    else if ev.succeededFlag then
      (amodify ev.name (fun r => { r with status := .succeeded }) db, [.deleteWorkload ev.name])
    else if ev.failedFlag then
      (amodify ev.name (fun r => { r with status := .failed }) db, [.deleteWorkload ev.name])
    else (db, [])

/-- The `state` entry of a container status;
`terminatedExitCode` is `state.get('terminated', \x7b\x7d).get('exitCode')`. -/
structure ContainerState where
  terminatedExitCode : Option Int
deriving DecidableEq, Repr

/-- One entry of `pod.obj['status']['containerStatuses']`. -/
structure ContainerStatus where
  restartCount : Nat
  state : ContainerState
deriving DecidableEq, Repr

/-- A pod event as consumed by `watch_pods`. `containerStatuses` is `none`
when the `containerStatuses` key is absent from the pod status (raising
KeyError, which the loop catches). `podLogs` is what `pod.logs()` returns. -/
structure PodEvent where
  podName : String
  containerStatuses : Option (List ContainerStatus)
  podLogs : String
deriving DecidableEq, Repr

/-- Python `s.split('-')`: splits at every dash, keeping empty segments. -/
def splitDashChars : List Char → List (List Char)
  | [] => [[]]
  | c :: rest =>
    if c = '-' then [] :: splitDashChars rest
    else
      match splitDashChars rest with
      | [] => [[c]]
      | w :: ws => (c :: w) :: ws

/-- The pod-naming correlation `'-'.join(pod.name.split('-')[:-1])`
(k8s.py line 210). -/
def jobNameOfPod (podName : String) : String :=
  String.intercalate "-" (((splitDashChars podName.toList).map (fun cs => String.mk cs)).dropLast)

/-- Outcome of one iteration of the `watch_pods` loop: either the event was
processed (possibly skipped through the `except KeyError` handler), or an
exception other than KeyError escaped the handler and aborted the loop;
mutations made before the raise persist. -/
inductive PodStepResult where
  | ok (db : JobDB) (effects : List Effect)
  | uncaughtIndexError (db : JobDB) (effects : List Effect)
deriving DecidableEq, Repr

/-- The escalation guard `restarts >= ... and exit_code > 0`. When the
container is not in a terminated state, `exit_code` is None and the Python 2
comparison `None > 0` evaluates to False. -/
def exitCodePositive : Option Int → Bool
  | some c => 0 < c
  | none => false

/-- The pod-attachment block of `watch_pods` (k8s.py lines 211-215): if the
owning job is known and stores no pod yet, store this pod. -/
def attachPod (db : JobDB) (jobName podName : String) : JobDB :=
  match alookup jobName db with
  | some rec =>
    if rec.pod = none then
      amodify jobName (fun r => { r with pod := some (PodRef.mk podName) }) db
    else db
  | none => db

/-- One iteration of the `watch_pods` event loop (k8s.py lines 202-252):
derive the owning job name from the pod name, attach the pod reference when
none is stored yet, and for active jobs (not deleted, status not failed)
record the restart count and escalate to failed when the guard holds, in the
order of the source: write `restart_count`, then fetch and store the log,
then set the status and request workload deletion. Indexing
`containerStatuses[0]` on an empty list raises IndexError, which the
`except KeyError` clause does not catch. -/
def processPodEvent (db : JobDB) (ev : PodEvent) : PodStepResult :=
  match alookup (jobNameOfPod ev.podName) (attachPod db (jobNameOfPod ev.podName) ev.podName) with
  | none => .ok (attachPod db (jobNameOfPod ev.podName) ev.podName) []
  | some rec =>
    if rec.deleted ∨ rec.status = .failed then
      .ok (attachPod db (jobNameOfPod ev.podName) ev.podName) []
    else
      match ev.containerStatuses with
      | none => .ok (attachPod db (jobNameOfPod ev.podName) ev.podName) []
      | some [] => .uncaughtIndexError (attachPod db (jobNameOfPod ev.podName) ev.podName) []
      | some (cs :: _) =>
        if rec.max_restart_count ≤ cs.restartCount ∧ exitCodePositive cs.state.terminatedExitCode then
          .ok (amodify (jobNameOfPod ev.podName) (fun r => { r with status := .failed })
                (amodify (jobNameOfPod ev.podName) (fun r => { r with log := some ev.podLogs })
                  (amodify (jobNameOfPod ev.podName) (fun r => { r with restart_count := cs.restartCount })
                    (attachPod db (jobNameOfPod ev.podName) ev.podName))))
            [.fetchLogs (PodRef.mk ev.podName), .deleteWorkload (jobNameOfPod ev.podName)]
        else
          .ok (amodify (jobNameOfPod ev.podName) (fun r => { r with restart_count := cs.restartCount })
                (attachPod db (jobNameOfPod ev.podName) ev.podName)) []

/-- One step of either reconciler loop. -/
inductive ReconcilerStep where
  | jobStep (ev : JobEvent) (podPolls : List (Option PodRef)) (existsPolls : List Bool)
  | podStep (ev : PodEvent)

/-- Table component of a pod-loop iteration outcome (mutations made before an
uncaught raise persist in the shared table). -/
def podResultDB : PodStepResult → JobDB
  | .ok db _ => db
  | .uncaughtIndexError db _ => db

/-- Effect of one reconciler step on the job table. -/
def stepDB (db : JobDB) : ReconcilerStep → JobDB
  | .jobStep ev podPolls existsPolls => (processJobEvent db ev podPolls existsPolls).1
  | .podStep ev => podResultDB (processPodEvent db ev)

/-- Iterated reconciler steps (an arbitrary interleaving of the two loops). -/
def runSteps (db : JobDB) : List ReconcilerStep → JobDB
  | [] => db
  | s :: rest => runSteps (stepDB db s) rest

/-! ## Helper lemmas on the dict operations -/

/-- Looking a key up after deleting that key yields nothing. -/
theorem alookup_adel_self {α : Type} (k : String) (d : List (String × α)) :
    alookup k (adel k d) = none := by
  induction d with
  | nil => rfl
  | cons a rest ih =>
    obtain ⟨k₁, v⟩ := a
    by_cases h : k₁ = k
    · simpa [adel, List.filter_cons, h] using ih
    · simpa [adel, List.filter_cons, h, alookup] using ih

/-- Deleting one key leaves lookups of any other key unchanged. -/
theorem alookup_adel_ne {α : Type} (k k₁ : String) (h : k ≠ k₁) (d : List (String × α)) :
    alookup k (adel k₁ d) = alookup k d := by
  induction d with
  | nil => rfl
  | cons a rest ih =>
    obtain ⟨k₂, v⟩ := a
    by_cases h₂ : k₂ = k₁
    · have hk : ¬ k₂ = k := by rw [h₂]; exact fun he => h he.symm
      rw [show adel k₁ ((k₂, v) :: rest) = adel k₁ rest from by
        simp [adel, List.filter_cons, h₂]]
      rw [show alookup k ((k₂, v) :: rest) = alookup k rest from by
        simp [alookup, hk]]
      exact ih
    · rw [show adel k₁ ((k₂, v) :: rest) = (k₂, v) :: adel k₁ rest from by
        simp [adel, List.filter_cons, h₂]]
      by_cases h₃ : k₂ = k
      · simp [alookup, h₃]
      · simp [alookup, h₃, ih]

/-- A successful lookup exhibits a member of the association list. -/
theorem alookup_mem {α : Type} {k : String} {v : α} :
    ∀ {d : List (String × α)}, alookup k d = some v → (k, v) ∈ d := by
  intro d
  induction d with
  | nil => intro h; simp [alookup] at h
  | cons a rest ih =>
    obtain ⟨k₁, v₁⟩ := a
    intro h
    by_cases hk : k₁ = k
    · subst hk
      have hv : v₁ = v := by simpa [alookup] using h
      subst hv
      exact List.mem_cons_self _ _
    · have h₂ : alookup k rest = some v := by simpa [alookup, hk] using h
      exact List.mem_cons_of_mem _ (ih h₂)

/-- Core property of the record view: `obj`, `deleted` and any truthy `pod`
binding are gone, every other binding is untouched. -/
theorem filter_record_spec (rec : RecordDict)
    (hpod : ∀ v, alookup "pod" rec = some v → truthy v = true) :
    alookup "obj" (filter_record rec) = none ∧
    alookup "deleted" (filter_record rec) = none ∧
    alookup "pod" (filter_record rec) = none ∧
    ∀ k, k ≠ "obj" → k ≠ "deleted" → k ≠ "pod" →
      alookup k (filter_record rec) = alookup k rec := by
  have hobj : alookup "obj" (adel "deleted" (adel "obj" rec)) = none := by
    rw [alookup_adel_ne _ _ (by decide), alookup_adel_self]
  have hdel : alookup "deleted" (adel "deleted" (adel "obj" rec)) = none :=
    alookup_adel_self _ _
  have hpodeq : alookup "pod" (adel "deleted" (adel "obj" rec)) = alookup "pod" rec := by
    rw [alookup_adel_ne _ _ (by decide), alookup_adel_ne _ _ (by decide)]
  cases hcase : alookup "pod" (adel "deleted" (adel "obj" rec)) with
  | none =>
    have hfr : filter_record rec = adel "deleted" (adel "obj" rec) := by
      unfold filter_record
      simp only [hcase]
    rw [hfr]
    exact ⟨hobj, hdel, hcase, fun k hk₁ hk₂ hk₃ => by
      rw [alookup_adel_ne _ _ hk₂, alookup_adel_ne _ _ hk₁]⟩
  | some v =>
    have ht : truthy v = true := hpod v (hpodeq ▸ hcase)
    have hfr : filter_record rec = adel "pod" (adel "deleted" (adel "obj" rec)) := by
      unfold filter_record
      simp only [hcase, ht, if_true]
    rw [hfr]
    refine ⟨?_, ?_, alookup_adel_self _ _, ?_⟩
    · rw [alookup_adel_ne _ _ (by decide)]; exact hobj
    · rw [alookup_adel_ne _ _ (by decide)]; exact hdel
    · intro k hk₁ hk₂ hk₃
      rw [alookup_adel_ne _ _ hk₃, alookup_adel_ne _ _ hk₂, alookup_adel_ne _ _ hk₁]

/-- The inline body of `get_job` computes the same view as `filter_record`. -/
theorem get_job_eq (db : List (String × RecordDict)) (job_id : String) :
    get_job db job_id =
      match alookup job_id db with
      | some rec => .ok (filter_record rec)
      | none => .notFound := by
  unfold get_job filter_record
  cases alookup job_id db with
  | none => rfl
  | some rec =>
    cases h : alookup "pod" (adel "deleted" (adel "obj" rec)) with
    | none => simp [h]
    | some v => by_cases ht : truthy v <;> simp [h, ht]

/-! ## Example records used by the witnesses -/

/-- A create-request body with the two required fields plus an extra field
the client chose to include. -/
def exCreateRequest : RecordDict :=
  [("experiment", .vStr "atlas"), ("docker-img", .vStr "busybox"),
   ("workflow", .vStr "extra-field")]

/-- The stored record after creation, pod attachment and failure escalation
(the pod and log keys are written by watch_pods via dict assignment). -/
def exRecordWithLog : RecordDict :=
  aset "log" (.vStr "crash log")
    (aset "pod" (.vPod "job-1-x") (mkJobRecord exCreateRequest "job-1" "handle-1"))

/-- A small job table whose records store truthy pod references at most. -/
def exDb9 : List (String × RecordDict) :=
  [("job-1", exRecordWithLog),
   ("job-2", mkJobRecord exCreateRequest "job-2" "handle-2")]

/-- C9: for every state of the job table whose pod entries are actual pod
references (all writers store pykube Pod objects, which are truthy), the
views returned by GET /jobs and GET /jobs/(id) contain no `pod`, `deleted`
or `obj` binding in any record. -/
theorem public_views_hide_internal_fields
    (db : List (String × RecordDict))
    (hdb : ∀ p ∈ db, ∀ v, alookup "pod" p.2 = some v → truthy v = true) :
    (∀ q ∈ filter_jobs db,
        alookup "obj" q.2 = none ∧ alookup "deleted" q.2 = none ∧
        alookup "pod" q.2 = none)
    ∧ (∀ job_id job, get_job db job_id = .ok job →
        alookup "obj" job = none ∧ alookup "deleted" job = none ∧
        alookup "pod" job = none) := by
  constructor
  · intro q hq
    simp only [filter_jobs, List.mem_map] at hq
    obtain ⟨p, hp, rfl⟩ := hq
    have h := filter_record_spec p.2 (hdb p hp)
    exact ⟨h.1, h.2.1, h.2.2.1⟩
  · intro job_id job hjob
    rw [get_job_eq] at hjob
    cases hmem : alookup job_id db with
    | none => rw [hmem] at hjob; cases hjob
    | some rec =>
      rw [hmem] at hjob
      cases hjob
      have h := filter_record_spec rec (hdb (job_id, rec) (alookup_mem hmem))
      exact ⟨h.1, h.2.1, h.2.2.1⟩

theorem public_views_hide_internal_fields_witness :
    alookup "obj" (filter_record exRecordWithLog) = none ∧
    alookup "deleted" (filter_record exRecordWithLog) = none ∧
    alookup "pod" (filter_record exRecordWithLog) = none := by
  have hdb : ∀ p ∈ exDb9, ∀ v, alookup "pod" p.2 = some v → truthy v = true := by
    intro p hp v hv
    fin_cases hp
    · rw [show alookup "pod" exRecordWithLog = some (Value.vPod "job-1-x") from by decide] at hv
      cases hv
      rfl
    · rw [show alookup "pod" (mkJobRecord exCreateRequest "job-2" "handle-2")
            = (none : Option Value) from by decide] at hv
      cases hv
  have h := (public_views_hide_internal_fields exDb9 hdb).1
  exact h ("job-1", filter_record exRecordWithLog) (by decide)

/-- C10: the views strip exactly `obj`, `deleted` and the (truthy) `pod`
binding and expose every other stored binding unchanged; in particular the
captured log text and extra fields of the original create body are exposed. -/
theorem public_views_strip_exactly_three_fields :
    (∀ rec : RecordDict, (∀ v, alookup "pod" rec = some v → truthy v = true) →
        (alookup "obj" (filter_record rec) = none ∧
         alookup "deleted" (filter_record rec) = none ∧
         alookup "pod" (filter_record rec) = none)
        ∧ ∀ k, k ≠ "obj" → k ≠ "deleted" → k ≠ "pod" →
            alookup k (filter_record rec) = alookup k rec)
    ∧ (alookup "log" (filter_record exRecordWithLog) = some (.vStr "crash log")
       ∧ alookup "workflow" (filter_record exRecordWithLog) = some (.vStr "extra-field")
       ∧ get_job [("job-1", exRecordWithLog)] "job-1" = .ok (filter_record exRecordWithLog)) := by
  refine ⟨?_, by decide, by decide, ?_⟩
  · intro rec hpod
    have h := filter_record_spec rec hpod
    exact ⟨⟨h.1, h.2.1, h.2.2.1⟩, h.2.2.2⟩
  · rw [get_job_eq]
    rw [show alookup "job-1" [("job-1", exRecordWithLog)] = some exRecordWithLog from by decide]

theorem public_views_strip_exactly_three_fields_witness :
    alookup "experiment" (filter_record exRecordWithLog) = some (Value.vStr "atlas") := by
  have hpod : ∀ v, alookup "pod" exRecordWithLog = some v → truthy v = true := by
    intro v hv
    rw [show alookup "pod" exRecordWithLog = some (Value.vPod "job-1-x") from by decide] at hv
    cases hv
    rfl
  have h := (public_views_strip_exactly_three_fields.1 exRecordWithLog hpod).2
      "experiment" (by decide) (by decide) (by decide)
  rw [h]
  decide

/-- C8: validation failures abort with 400 and leave the table unchanged,
but every request carrying both required fields raises TypeError at the
`instantiate_job` call site (seven arguments against a one-parameter
function) and yields a 500 with the table unchanged: the 201/insert success
path of the source is unreachable. -/
theorem create_job_valid_request_hits_typeerror :
    (∀ (db : List (String × RecordDict)) (reqJson : RecordDict) (job_id : String)
        (b : Option String),
        alookup "experiment" reqJson = none ∨ alookup "docker-img" reqJson = none →
        create_job db reqJson job_id b = (.badRequest, db))
    ∧ (∀ (db : List (String × RecordDict)) (reqJson : RecordDict) (job_id : String)
        (b : Option String),
        alookup "experiment" reqJson ≠ none → alookup "docker-img" reqJson ≠ none →
        create_job db reqJson job_id b = (.uncaughtTypeError, db)) := by
  constructor
  · intro db req id b h
    unfold create_job
    rcases h with h | h <;> simp [h]
  · intro db req id b h₁ h₂
    have hne : ¬ req = [] := by
      intro he
      subst he
      exact h₁ rfl
    unfold create_job instantiate_job_call
    simp [hne, h₁, h₂, create_job_callArgCount, instantiate_job_paramCount]

theorem create_job_valid_request_hits_typeerror_witness :
    create_job [] [("experiment", Value.vStr "atlas"), ("docker-img", Value.vStr "busybox")]
        "job-1" (some "handle")
      = (CreateResult.uncaughtTypeError, []) :=
  create_job_valid_request_hits_typeerror.2 [] _ "job-1" (some "handle")
    (by decide) (by decide)

/-! ## Helper lemmas on amodify and attachPod -/

/-- Lookup through an in-place modification of one key. -/
theorem alookup_amodify {α : Type} (k k₁ : String) (f : α → α) (d : List (String × α)) :
    alookup k (amodify k₁ f d) =
      if k₁ = k then (alookup k d).map f else alookup k d := by
  induction d with
  | nil => by_cases h : k₁ = k <;> simp [amodify, alookup, h]
  | cons a rest ih =>
    obtain ⟨k₂, v⟩ := a
    by_cases h₂ : k₂ = k₁
    · subst h₂
      by_cases h₃ : k₂ = k
      · subst h₃
        simp [amodify, alookup]
      · simp [amodify, alookup, h₃, ih]
    · by_cases h₃ : k₂ = k
      · subst h₃
        have h₄ : ¬ k₁ = k₂ := fun he => h₂ he.symm
        simp [amodify, alookup, h₂, h₄]
      · simp [amodify, alookup, h₂, h₃, ih]

/-- Lookup of a different key through amodify is unchanged. -/
theorem alookup_amodify_ne {α : Type} (k k₁ : String) (h : ¬ k₁ = k) (f : α → α)
    (d : List (String × α)) : alookup k (amodify k₁ f d) = alookup k d := by
  rw [alookup_amodify, if_neg h]

/-- Lookup of the modified key through amodify. -/
theorem alookup_amodify_self {α : Type} (k : String) (f : α → α) (d : List (String × α)) :
    alookup k (amodify k f d) = (alookup k d).map f := by
  rw [alookup_amodify, if_pos rfl]

/-- Equation for attachPod when the owning job is known. -/
theorem attachPod_eq_of_found (db : JobDB) (jn pn : String) (r : JobRecord)
    (hjn : alookup jn db = some r) :
    attachPod db jn pn =
      if r.pod = none then
        amodify jn (fun x => { x with pod := some (PodRef.mk pn) }) db
      else db := by
  unfold attachPod
  rw [hjn]

/-- Equation for attachPod when the owning job is unknown. -/
theorem attachPod_eq_of_none (db : JobDB) (jn pn : String)
    (hjn : alookup jn db = none) : attachPod db jn pn = db := by
  unfold attachPod
  rw [hjn]

/-- The attachment block only ever writes the pod field, and only when it was
empty: every record keeps its status and tombstone flag, and a stored pod
reference survives. -/
theorem attachPod_evolution (db : JobDB) (jn pn name : String) (rec : JobRecord)
    (h : alookup name db = some rec) :
    ∃ rec₂, alookup name (attachPod db jn pn) = some rec₂
      ∧ rec₂.status = rec.status ∧ rec₂.deleted = rec.deleted
      ∧ (rec₂.pod = rec.pod ∨ rec.pod = none)
      ∧ rec₂.restart_count = rec.restart_count
      ∧ rec₂.max_restart_count = rec.max_restart_count := by
  cases hjn : alookup jn db with
  | none =>
    rw [attachPod_eq_of_none db jn pn hjn]
    exact ⟨rec, h, rfl, rfl, Or.inl rfl, rfl, rfl⟩
  | some r =>
    rw [attachPod_eq_of_found db jn pn r hjn]
    by_cases hp : r.pod = none
    · rw [if_pos hp]
      by_cases hn : jn = name
      · subst hn
        rw [h] at hjn
        cases hjn
        refine ⟨{ rec with pod := some (PodRef.mk pn) }, ?_, rfl, rfl, Or.inr hp, rfl, rfl⟩
        rw [alookup_amodify_self, h]
        rfl
      · exact ⟨rec, by rw [alookup_amodify_ne _ _ hn, h], rfl, rfl, Or.inl rfl, rfl, rfl⟩
    · rw [if_neg hp]
      exact ⟨rec, h, rfl, rfl, Or.inl rfl, rfl, rfl⟩

/-! ## Case equations for the workload-event step -/

/-- A workload event for an unknown job does nothing. -/
theorem processJobEvent_eq_of_none (db : JobDB) (ev : JobEvent)
    (pp : List (Option PodRef)) (ep : List Bool)
    (h : alookup ev.name db = none) :
    processJobEvent db ev pp ep = (db, []) := by
  unfold processJobEvent
  rw [h]

/-- A workload event for a tombstoned job does nothing. -/
theorem processJobEvent_eq_of_deleted (db : JobDB) (ev : JobEvent)
    (pp : List (Option PodRef)) (ep : List Bool) (r : JobRecord)
    (h : alookup ev.name db = some r) (hd : r.deleted = true) :
    processJobEvent db ev pp ep = (db, []) := by
  unfold processJobEvent
  rw [h]
  simp [hd]

/-- Reduction of the workload-event step for a non-tombstoned job. -/
theorem processJobEvent_eq_of_active (db : JobDB) (ev : JobEvent)
    (pp : List (Option PodRef)) (ep : List Bool) (r : JobRecord)
    (h : alookup ev.name db = some r) (hd : r.deleted = false) :
    processJobEvent db ev pp ep =
      if ev.typ = .deleted then
        match firstAttached pp with
        | none => (db, [])
        | some p =>
          if ep.contains false then
            (amodify ev.name (fun x => { x with deleted := true }) db, [.deletePod p])
          else (db, [])
      else if ev.succeededFlag then
        (amodify ev.name (fun x => { x with status := .succeeded }) db, [.deleteWorkload ev.name])
      else if ev.failedFlag then
        (amodify ev.name (fun x => { x with status := .failed }) db, [.deleteWorkload ev.name])
      else (db, []) := by
  unfold processJobEvent
  rw [h]
  simp [hd]

/-! ## Per-step record evolution -/

/-- How one workload-event iteration can change an arbitrary record: the pod
reference is untouched, the tombstone flag can only be raised, and a status
write (always to succeeded or failed) happens only on records that were not
tombstoned. -/
theorem processJobEvent_db_evolution (db : JobDB) (ev : JobEvent)
    (pp : List (Option PodRef)) (ep : List Bool) (name : String) (rec : JobRecord)
    (h : alookup name db = some rec) :
    ∃ rec₂, alookup name (processJobEvent db ev pp ep).1 = some rec₂
      ∧ (rec₂.status = rec.status
          ∨ ((rec₂.status = .succeeded ∨ rec₂.status = .failed) ∧ rec.deleted = false))
      ∧ (rec₂.deleted = rec.deleted ∨ rec₂.deleted = true)
      ∧ rec₂.pod = rec.pod := by
  cases hev : alookup ev.name db with
  | none =>
    rw [processJobEvent_eq_of_none db ev pp ep hev]
    exact ⟨rec, h, Or.inl rfl, Or.inl rfl, rfl⟩
  | some r =>
    cases hd : r.deleted with
    | true =>
      rw [processJobEvent_eq_of_deleted db ev pp ep r hev hd]
      exact ⟨rec, h, Or.inl rfl, Or.inl rfl, rfl⟩
    | false =>
      rw [processJobEvent_eq_of_active db ev pp ep r hev hd]
      by_cases ht : ev.typ = .deleted
      · rw [if_pos ht]
        cases hfa : firstAttached pp with
        | none => exact ⟨rec, h, Or.inl rfl, Or.inl rfl, rfl⟩
        | some p =>
          dsimp only
          by_cases hc : ep.contains false = true
          · rw [if_pos hc]
            by_cases hn : ev.name = name
            · subst hn
              rw [h] at hev
              cases hev
              refine ⟨{ rec with deleted := true }, ?_, Or.inl rfl, Or.inr rfl, rfl⟩
              dsimp only
              rw [alookup_amodify_self, h]
              rfl
            · exact ⟨rec, by dsimp only; rw [alookup_amodify_ne _ _ hn, h], Or.inl rfl,
                Or.inl rfl, rfl⟩
          · rw [if_neg hc]
            exact ⟨rec, h, Or.inl rfl, Or.inl rfl, rfl⟩
      · rw [if_neg ht]
        by_cases hs : ev.succeededFlag = true
        · rw [if_pos hs]
          by_cases hn : ev.name = name
          · subst hn
            rw [h] at hev
            cases hev
            refine ⟨{ rec with status := .succeeded }, ?_, Or.inr ⟨Or.inl rfl, hd⟩, Or.inl rfl, rfl⟩
            dsimp only
            rw [alookup_amodify_self, h]
            rfl
          · exact ⟨rec, by dsimp only; rw [alookup_amodify_ne _ _ hn, h], Or.inl rfl,
              Or.inl rfl, rfl⟩
        · rw [if_neg hs]
          by_cases hfl : ev.failedFlag = true
          · rw [if_pos hfl]
            by_cases hn : ev.name = name
            · subst hn
              rw [h] at hev
              cases hev
              refine ⟨{ rec with status := .failed }, ?_, Or.inr ⟨Or.inr rfl, hd⟩, Or.inl rfl, rfl⟩
              dsimp only
              rw [alookup_amodify_self, h]
              rfl
            · exact ⟨rec, by dsimp only; rw [alookup_amodify_ne _ _ hn, h], Or.inl rfl,
                Or.inl rfl, rfl⟩
          · rw [if_neg hfl]
            exact ⟨rec, h, Or.inl rfl, Or.inl rfl, rfl⟩

/-- How one pod-loop iteration can change an arbitrary record: an empty pod
reference may be filled, the restart count and log may be rewritten, and the
only status write is the escalation to failed, which happens only on records
that were not tombstoned. -/
theorem processPodEvent_db_evolution (db : JobDB) (ev : PodEvent) (name : String)
    (rec : JobRecord) (h : alookup name db = some rec) :
    ∃ rec₂, alookup name (podResultDB (processPodEvent db ev)) = some rec₂
      ∧ (rec₂.status = rec.status
          ∨ ((rec₂.status = .succeeded ∨ rec₂.status = .failed) ∧ rec.deleted = false))
      ∧ (rec₂.deleted = rec.deleted ∨ rec₂.deleted = true)
      ∧ (rec₂.pod = rec.pod ∨ rec.pod = none) := by
  obtain ⟨rec₁, h₁, hst₁, hdel₁, hpod₁, hrc₁, hmax₁⟩ :=
    attachPod_evolution db (jobNameOfPod ev.podName) ev.podName name rec h
  unfold processPodEvent
  cases hjn : alookup (jobNameOfPod ev.podName)
      (attachPod db (jobNameOfPod ev.podName) ev.podName) with
  | none =>
    dsimp only [podResultDB]
    exact ⟨rec₁, h₁, Or.inl hst₁, Or.inl hdel₁, hpod₁⟩
  | some r =>
    dsimp only
    by_cases hterm : r.deleted = true ∨ r.status = .failed
    · rw [if_pos hterm]
      dsimp only [podResultDB]
      exact ⟨rec₁, h₁, Or.inl hst₁, Or.inl hdel₁, hpod₁⟩
    · rw [if_neg hterm]
      cases hcs : ev.containerStatuses with
      | none =>
        dsimp only [podResultDB]
        exact ⟨rec₁, h₁, Or.inl hst₁, Or.inl hdel₁, hpod₁⟩
      | some l =>
        cases l with
        | nil =>
          dsimp only [podResultDB]
          exact ⟨rec₁, h₁, Or.inl hst₁, Or.inl hdel₁, hpod₁⟩
        | cons cs rest =>
          dsimp only
          by_cases hg : r.max_restart_count ≤ cs.restartCount
              ∧ exitCodePositive cs.state.terminatedExitCode = true
          · rw [if_pos hg]
            dsimp only [podResultDB]
            by_cases hn : jobNameOfPod ev.podName = name
            · subst hn
              rw [h₁] at hjn
              cases hjn
              have hrdel : rec.deleted = false := by
                rw [← hdel₁]
                cases hb : rec₁.deleted with
                | false => rfl
                | true => exact absurd (Or.inl hb) hterm
              refine ⟨{ rec₁ with restart_count := cs.restartCount, log := some ev.podLogs, status := JobStatus.failed }, ?_, Or.inr ⟨Or.inr rfl, hrdel⟩, Or.inl hdel₁, ?_⟩
              · rw [alookup_amodify_self, alookup_amodify_self, alookup_amodify_self, h₁]
                rfl
              · rcases hpod₁ with hp | hp
                · exact Or.inl hp
                · exact Or.inr hp
            · refine ⟨rec₁, ?_, Or.inl hst₁, Or.inl hdel₁, hpod₁⟩
              rw [alookup_amodify_ne _ _ hn, alookup_amodify_ne _ _ hn,
                alookup_amodify_ne _ _ hn]
              exact h₁
          · rw [if_neg hg]
            dsimp only [podResultDB]
            by_cases hn : jobNameOfPod ev.podName = name
            · subst hn
              refine ⟨{ rec₁ with restart_count := cs.restartCount }, ?_,
                Or.inl hst₁, Or.inl hdel₁, ?_⟩
              · rw [alookup_amodify_self, h₁]
                rfl
              · rcases hpod₁ with hp | hp
                · exact Or.inl hp
                · exact Or.inr hp
            · refine ⟨rec₁, ?_, Or.inl hst₁, Or.inl hdel₁, hpod₁⟩
              rw [alookup_amodify_ne _ _ hn]
              exact h₁

/-- Combined per-step record evolution: the pod reference is never replaced,
the tombstone flag is never lowered, and status writes (always terminal)
happen only on non-tombstoned records. -/
theorem stepDB_evolution (db : JobDB) (s : ReconcilerStep) (name : String)
    (rec : JobRecord) (h : alookup name db = some rec) :
    ∃ rec₂, alookup name (stepDB db s) = some rec₂
      ∧ (rec₂.status = rec.status
          ∨ ((rec₂.status = .succeeded ∨ rec₂.status = .failed) ∧ rec.deleted = false))
      ∧ (rec₂.deleted = rec.deleted ∨ rec₂.deleted = true)
      ∧ (rec₂.pod = rec.pod ∨ rec.pod = none) := by
  cases s with
  | jobStep ev pp ep =>
    obtain ⟨rec₂, h₂, hst, hdel, hpod⟩ := processJobEvent_db_evolution db ev pp ep name rec h
    exact ⟨rec₂, h₂, hst, hdel, Or.inl hpod⟩
  | podStep ev => exact processPodEvent_db_evolution db ev name rec h

/-- Record evolution over an arbitrary interleaving of reconciler steps. -/
theorem runSteps_evolution (steps : List ReconcilerStep) :
    ∀ (db : JobDB) (name : String) (rec : JobRecord), alookup name db = some rec →
      ∃ rec₂, alookup name (runSteps db steps) = some rec₂
        ∧ (rec.deleted = true → rec₂.status = rec.status ∧ rec₂.deleted = true)
        ∧ (∀ p, rec.pod = some p → rec₂.pod = some p) := by
  induction steps with
  | nil =>
    intro db name rec h
    exact ⟨rec, h, fun hd => ⟨rfl, hd⟩, fun p hp => hp⟩
  | cons s rest ih =>
    intro db name rec h
    obtain ⟨rec₁, h₁, hst, hdel, hpod⟩ := stepDB_evolution db s name rec h
    obtain ⟨rec₂, h₂, hA, hB⟩ := ih (stepDB db s) name rec₁ h₁
    refine ⟨rec₂, h₂, ?_, ?_⟩
    · intro hd
      have hdel₁ : rec₁.deleted = true := by
        rcases hdel with hx | hx
        · rw [hx, hd]
        · exact hx
      have hst₁ : rec₁.status = rec.status := by
        rcases hst with hx | hx
        · exact hx
        · rw [hd] at hx
          exact absurd hx.2 (by simp)
      obtain ⟨ha, hb⟩ := hA hdel₁
      exact ⟨ha.trans hst₁, hb⟩
    · intro p hp
      have hpod₁ : rec₁.pod = some p := by
        rcases hpod with hx | hx
        · rw [hx, hp]
        · rw [hp] at hx
          cases hx
      exact hB p hpod₁

/-! ## Example reconciler states used by counterexamples and witnesses -/

/-- A record whose workload already completed but which is not yet
tombstoned (its DELETED confirmation event has not been handled). -/
def exRecSucceeded : JobRecord :=
  { status := .succeeded, deleted := false, pod := some (PodRef.mk "job1-x"),
    restart_count := 0, max_restart_count := 3, log := none }

/-- A tombstoned record. -/
def exRecDeleted : JobRecord :=
  { status := .succeeded, deleted := true, pod := some (PodRef.mk "job1-x"),
    restart_count := 0, max_restart_count := 3, log := none }

/-- A freshly started active record with an attached pod. -/
def exRecStarted : JobRecord :=
  { status := .started, deleted := false, pod := some (PodRef.mk "job1-x"),
    restart_count := 0, max_restart_count := 3, log := none }

/-- A workload event reporting success for job1. -/
def exEvSucceeded : JobEvent :=
  { typ := .modified, name := "job1", succeededFlag := true, failedFlag := false }

/-- A workload event reporting workload-level failure for job1. -/
def exEvFailed : JobEvent :=
  { typ := .modified, name := "job1", succeededFlag := false, failedFlag := true }

/-- A workload deletion-confirmation event for job1. -/
def exEvDeleted : JobEvent :=
  { typ := .deleted, name := "job1", succeededFlag := false, failedFlag := false }

/-- C1 (counterexample): a record whose status is Succeeded and which is not
yet tombstoned is set to Failed by a single further workload-failure event,
refuting the claim that status moves only along Started→Succeeded|Failed. -/
theorem succeeded_record_set_to_failed :
    (alookup "job1" [("job1", exRecSucceeded)]).map JobRecord.status
        = some JobStatus.succeeded
    ∧ (alookup "job1"
          (runSteps [("job1", exRecSucceeded)] [ReconcilerStep.jobStep exEvFailed [] []])).map
        JobRecord.status = some JobStatus.failed := by
  constructor
  · rfl
  · rfl

/-- C1 (amended): once a record is tombstoned no reconciler step ever mutates
its status again, and every status write performed while not tombstoned sets
Succeeded or Failed; but status is not monotone between the terminal values:
a not-yet-tombstoned record can move Succeeded→Failed or Failed→Succeeded on
later workload or escalation events. -/
theorem status_mutation_stops_at_tombstone :
    (∀ (db : JobDB) (steps : List ReconcilerStep) (name : String) (rec : JobRecord),
        alookup name db = some rec → rec.deleted = true →
        ∃ rec₂, alookup name (runSteps db steps) = some rec₂
          ∧ rec₂.status = rec.status ∧ rec₂.deleted = true)
    ∧ (∀ (db : JobDB) (s : ReconcilerStep) (name : String) (rec rec₂ : JobRecord),
        alookup name db = some rec → alookup name (stepDB db s) = some rec₂ →
        ¬ rec₂.status = rec.status →
        (rec₂.status = .succeeded ∨ rec₂.status = .failed) ∧ rec.deleted = false) := by
  constructor
  · intro db steps name rec h hd
    obtain ⟨rec₂, h₂, hA, _⟩ := runSteps_evolution steps db name rec h
    obtain ⟨ha, hb⟩ := hA hd
    exact ⟨rec₂, h₂, ha, hb⟩
  · intro db s name rec rec₂ h h₂ hne
    obtain ⟨rec₃, h₃, hst, _, _⟩ := stepDB_evolution db s name rec h
    rw [h₂] at h₃
    cases h₃
    rcases hst with hx | hx
    · exact absurd hx hne
    · exact hx

theorem status_mutation_stops_at_tombstone_witness :
    alookup "job1" (runSteps [("job1", exRecDeleted)] [ReconcilerStep.jobStep exEvFailed [] []])
      = some exRecDeleted := by
  obtain ⟨rec₂, h₂, hst, hdel⟩ :=
    status_mutation_stops_at_tombstone.1 [("job1", exRecDeleted)]
      [ReconcilerStep.jobStep exEvFailed [] []] "job1" exRecDeleted (by decide) (by decide)
  rw [h₂]
  rw [show rec₂ = exRecDeleted from by
    rw [show runSteps [("job1", exRecDeleted)] [ReconcilerStep.jobStep exEvFailed [] []]
        = [("job1", exRecDeleted)] from by decide] at h₂
    rw [show alookup "job1" [("job1", exRecDeleted)] = some exRecDeleted from by decide] at h₂
    cases h₂
    rfl]

/-- C3 (counterexample): a workload event replaying the success of a job that
is already Succeeded (terminal, not yet tombstoned) is not ignored: the
reconciler issues another backend deletion call for the workload. -/
theorem replayed_success_event_reissues_deletion :
    (processJobEvent [("job1", exRecSucceeded)] exEvSucceeded [] []).2
        = [Effect.deleteWorkload "job1"]
    ∧ ¬ (processJobEvent [("job1", exRecSucceeded)] exEvSucceeded [] []).2 = [] := by
  constructor
  · rfl
  · intro hcontra
    rw [show (processJobEvent [("job1", exRecSucceeded)] exEvSucceeded [] []).2
        = [Effect.deleteWorkload "job1"] from rfl] at hcontra
    exact List.cons_ne_nil _ _ hcontra

/-- C3 (amended): workload events for tombstoned jobs are ignored (no record
change, no backend call); events for jobs whose status is terminal but not
yet tombstoned are re-processed and re-issue the workload deletion. -/
theorem tombstoned_job_events_ignored (db : JobDB) (ev : JobEvent)
    (podPolls : List (Option PodRef)) (existsPolls : List Bool) (rec : JobRecord)
    (hrec : alookup ev.name db = some rec) (hdel : rec.deleted = true) :
    processJobEvent db ev podPolls existsPolls = (db, []) :=
  processJobEvent_eq_of_deleted db ev podPolls existsPolls rec hrec hdel

theorem tombstoned_job_events_ignored_witness :
    processJobEvent [("job1", exRecDeleted)] exEvSucceeded [] []
      = ([("job1", exRecDeleted)], []) :=
  tombstoned_job_events_ignored [("job1", exRecDeleted)] exEvSucceeded [] []
    exRecDeleted (by decide) (by decide)

/-- C4: handling a deletion-confirmation event for a Started, non-tombstoned
job never deletes a pod nor raises the tombstone before a pod reference has
been observed and the backend has confirmed the workload gone; once both
hold, it deletes the first observed pod and sets deleted, leaving status and
pod reference intact and touching no other record. -/
theorem deletion_confirmation_waits (db : JobDB) (ev : JobEvent)
    (pp : List (Option PodRef)) (ep : List Bool) (rec : JobRecord)
    (h : alookup ev.name db = some rec) (hd : rec.deleted = false)
    (hs : rec.status = .started) (ht : ev.typ = .deleted) :
    (firstAttached pp = none → processJobEvent db ev pp ep = (db, []))
    ∧ (ep.contains false = false → processJobEvent db ev pp ep = (db, []))
    ∧ (∀ p, firstAttached pp = some p → ep.contains false = true →
        processJobEvent db ev pp ep =
          (amodify ev.name (fun x => { x with deleted := true }) db, [Effect.deletePod p])
        ∧ ∃ rec₂, alookup ev.name (processJobEvent db ev pp ep).1 = some rec₂
            ∧ rec₂.deleted = true ∧ rec₂.status = rec.status ∧ rec₂.pod = rec.pod) := by
  have heq := processJobEvent_eq_of_active db ev pp ep rec h hd
  rw [if_pos ht] at heq
  refine ⟨?_, ?_, ?_⟩
  · intro hfa
    rw [heq, hfa]
  · intro hep
    cases hfa : firstAttached pp with
    | none => rw [heq, hfa]
    | some p =>
      rw [heq, hfa]
      dsimp only
      rw [if_neg (by rw [hep]; exact Bool.false_ne_true)]
  · intro p hfa hc
    have heq₂ : processJobEvent db ev pp ep =
        (amodify ev.name (fun x => { x with deleted := true }) db, [Effect.deletePod p]) := by
      rw [heq, hfa]
      dsimp only
      rw [if_pos hc]
    refine ⟨heq₂, { rec with deleted := true }, ?_, rfl, rfl, rfl⟩
    rw [heq₂]
    dsimp only
    rw [alookup_amodify_self, h]
    rfl

theorem deletion_confirmation_waits_witness :
    processJobEvent [("job1", exRecStarted)] exEvDeleted
        [none, some (PodRef.mk "job1-x")] [true, false]
      = ([("job1", { exRecStarted with deleted := true })],
         [Effect.deletePod (PodRef.mk "job1-x")]) := by
  have h := (deletion_confirmation_waits [("job1", exRecStarted)] exEvDeleted
      [none, some (PodRef.mk "job1-x")] [true, false] exRecStarted
      (by decide) (by decide) (by decide) (by decide)).2.2
      (PodRef.mk "job1-x") (by decide) (by decide)
  rw [h.1]
  decide

/-- C6: once a record holds a pod reference, no sequence of reconciler steps
(workload events or pod events, including events for other pods correlating
to the same job) ever replaces it. -/
theorem pod_reference_first_write_wins (db : JobDB) (steps : List ReconcilerStep)
    (name : String) (rec : JobRecord) (p : PodRef)
    (h : alookup name db = some rec) (hp : rec.pod = some p) :
    ∃ rec₂, alookup name (runSteps db steps) = some rec₂ ∧ rec₂.pod = some p := by
  obtain ⟨rec₂, h₂, _, hB⟩ := runSteps_evolution steps db name rec h
  exact ⟨rec₂, h₂, hB p hp⟩

/-- A pod event for a second pod of the same job, reporting a crash loop. -/
def exPodEventOther : PodEvent :=
  { podName := "job1-y",
    containerStatuses := some [{ restartCount := 5, state := { terminatedExitCode := some 1 } }],
    podLogs := "boom" }

theorem pod_reference_first_write_wins_witness :
    (alookup "job1"
        (runSteps [("job1", exRecStarted)] [ReconcilerStep.podStep exPodEventOther])).map
      JobRecord.pod = some (some (PodRef.mk "job1-x")) := by
  obtain ⟨rec₂, h₂, hp⟩ := pod_reference_first_write_wins [("job1", exRecStarted)]
    [ReconcilerStep.podStep exPodEventOther] "job1" exRecStarted (PodRef.mk "job1-x")
    (by decide) (by decide)
  rw [h₂]
  simp [hp]

/-- Lookup of the owning job after the attach block: bookkeeping fields are
unchanged and the pod slot is now filled either way. -/
theorem attachPod_self_lookup (db : JobDB) (jn pn : String) (rec : JobRecord)
    (h : alookup jn db = some rec) :
    ∃ rec₁, alookup jn (attachPod db jn pn) = some rec₁
      ∧ rec₁.status = rec.status ∧ rec₁.deleted = rec.deleted
      ∧ rec₁.max_restart_count = rec.max_restart_count
      ∧ ¬ rec₁.pod = none := by
  rw [attachPod_eq_of_found db jn pn rec h]
  by_cases hp : rec.pod = none
  · rw [if_pos hp]
    refine ⟨{ rec with pod := some (PodRef.mk pn) }, ?_, rfl, rfl, rfl, by simp⟩
    rw [alookup_amodify_self, h]
    rfl
  · rw [if_neg hp]
    exact ⟨rec, h, rfl, rfl, rfl, hp⟩

/-- C2: a pod event for an active job (not tombstoned, not already failed)
whose first container reports restarts at or above the policy bound and a
positive terminated exit code makes the pod loop fetch and store the pod log,
set status failed and issue exactly one workload deletion (the effect list of
the step is exactly a log fetch followed by one workload deletion); replaying
the same event afterwards leaves the table unchanged and issues no call. -/
theorem escalation_sets_failed_once (db : JobDB) (ev : PodEvent) (rec : JobRecord)
    (cs : ContainerStatus) (rest : List ContainerStatus) (c : Int)
    (h : alookup (jobNameOfPod ev.podName) db = some rec)
    (hd : rec.deleted = false) (hf : ¬ rec.status = .failed)
    (hcs : ev.containerStatuses = some (cs :: rest))
    (hmax : rec.max_restart_count ≤ cs.restartCount)
    (hexit : cs.state.terminatedExitCode = some c) (hc : 0 < c) :
    ∃ db₂ rec₂,
      processPodEvent db ev
        = .ok db₂ [.fetchLogs (PodRef.mk ev.podName),
                   .deleteWorkload (jobNameOfPod ev.podName)]
      ∧ alookup (jobNameOfPod ev.podName) db₂ = some rec₂
      ∧ rec₂.status = .failed ∧ rec₂.log = some ev.podLogs
      ∧ rec₂.restart_count = cs.restartCount
      ∧ processPodEvent db₂ ev = .ok db₂ [] := by
  obtain ⟨rec₁, h₁, hst₁, hdel₁, hmax₁, hpodne⟩ :=
    attachPod_self_lookup db (jobNameOfPod ev.podName) ev.podName rec h
  have hterm : ¬ (rec₁.deleted = true ∨ rec₁.status = .failed) := by
    intro hcontra
    rcases hcontra with hx | hx
    · rw [hdel₁, hd] at hx
      exact Bool.false_ne_true hx
    · rw [hst₁] at hx
      exact hf hx
  have hguard : rec₁.max_restart_count ≤ cs.restartCount
      ∧ exitCodePositive cs.state.terminatedExitCode = true := by
    refine ⟨hmax₁ ▸ hmax, ?_⟩
    rw [hexit]
    simp [exitCodePositive]
    exact hc
  have heq1 : processPodEvent db ev =
      .ok (amodify (jobNameOfPod ev.podName) (fun r => { r with status := .failed })
            (amodify (jobNameOfPod ev.podName) (fun r => { r with log := some ev.podLogs })
              (amodify (jobNameOfPod ev.podName) (fun r => { r with restart_count := cs.restartCount })
                (attachPod db (jobNameOfPod ev.podName) ev.podName))))
        [.fetchLogs (PodRef.mk ev.podName), .deleteWorkload (jobNameOfPod ev.podName)] := by
    unfold processPodEvent
    rw [h₁, hcs]
    dsimp only
    rw [if_neg hterm, if_pos hguard]
  set db₂ := amodify (jobNameOfPod ev.podName) (fun r => { r with status := .failed })
      (amodify (jobNameOfPod ev.podName) (fun r => { r with log := some ev.podLogs })
        (amodify (jobNameOfPod ev.podName) (fun r => { r with restart_count := cs.restartCount })
          (attachPod db (jobNameOfPod ev.podName) ev.podName))) with hdb₂
  have h₂ : alookup (jobNameOfPod ev.podName) db₂ =
      some { rec₁ with restart_count := cs.restartCount, log := some ev.podLogs, status := JobStatus.failed } := by
    rw [hdb₂, alookup_amodify_self, alookup_amodify_self, alookup_amodify_self, h₁]
    rfl
  have hA2 : attachPod db₂ (jobNameOfPod ev.podName) ev.podName = db₂ := by
    rw [attachPod_eq_of_found db₂ (jobNameOfPod ev.podName) ev.podName _ h₂]
    rw [if_neg (by dsimp only; exact hpodne)]
  have heq2 : processPodEvent db₂ ev = .ok db₂ [] := by
    unfold processPodEvent
    rw [hA2, h₂]
    dsimp only
    rw [if_pos (Or.inr rfl)]
  exact ⟨db₂, _, heq1, h₂, rfl, rfl, rfl, heq2⟩

/-- The pod event that reaches the restart bound with a positive exit code. -/
def exEscalatingPodEvent : PodEvent :=
  { podName := "job1-x",
    containerStatuses := some [{ restartCount := 3, state := { terminatedExitCode := some 2 } }],
    podLogs := "crash log" }

/-- The record of job1 after the escalation above. -/
def exRecFailedAfter : JobRecord :=
  { status := .failed, deleted := false, pod := some (PodRef.mk "job1-x"),
    restart_count := 3, max_restart_count := 3, log := some "crash log" }

theorem escalation_sets_failed_once_witness :
    processPodEvent [("job1", exRecStarted)] exEscalatingPodEvent
      = .ok [("job1", exRecFailedAfter)]
          [Effect.fetchLogs (PodRef.mk "job1-x"), Effect.deleteWorkload "job1"]
    ∧ processPodEvent [("job1", exRecFailedAfter)] exEscalatingPodEvent
      = .ok [("job1", exRecFailedAfter)] [] := by
  obtain ⟨db₂, rec₂, h1, h2, h3, h4, h5, h6⟩ :=
    escalation_sets_failed_once [("job1", exRecStarted)] exEscalatingPodEvent exRecStarted
      { restartCount := 3, state := { terminatedExitCode := some 2 } } [] 2
      (by decide) (by decide) (by decide) (by decide) (by decide) (by decide) (by decide)
  have hconc : processPodEvent [("job1", exRecStarted)] exEscalatingPodEvent
      = .ok [("job1", exRecFailedAfter)]
          [Effect.fetchLogs (PodRef.mk "job1-x"), Effect.deleteWorkload "job1"] := by decide
  have hdb : db₂ = [("job1", exRecFailedAfter)] := by
    rw [h1] at hconc
    injection hconc with hA hB
  constructor
  · rw [h1, hdb]
    decide
  · rw [← hdb]
    exact h6

/-- C5: a pod event for an active job whose status carries an empty
containerStatuses list makes the loop raise an uncaught IndexError at
`containerStatuses[0]` (the handler catches only KeyError), while an event
with the containerStatuses key absent is skipped through the KeyError
handler with the record unchanged. -/
theorem empty_container_statuses_raises_indexerror :
    processPodEvent [("job1", exRecStarted)]
        { podName := "job1-y", containerStatuses := some [], podLogs := "" }
      = .uncaughtIndexError [("job1", exRecStarted)] []
    ∧ processPodEvent [("job1", exRecStarted)]
        { podName := "job1-y", containerStatuses := none, podLogs := "" }
      = .ok [("job1", exRecStarted)] [] := by
  constructor
  · decide
  · decide

/-! ## k8s.py: prepare_job, the workload-spec builder -/

/-- A volumeMounts entry of the container spec (the code builds these as
dicts with exactly a name and a mountPath). -/
structure VolumeMount where
  name : String
  mountPath : String
deriving DecidableEq, Repr

/-- What backs a volume entry of the job spec. -/
inductive VolumeSource where
  | cephfs (ns : String)
  | cvmfs (ns : String) (repo : String)
  | secretData (data : String)
deriving DecidableEq, Repr

/-- A volumes entry of the job spec. -/
structure Volume where
  name : String
  source : VolumeSource
  readOnly : Bool
deriving DecidableEq, Repr

/-- The single container of the job template. -/
structure Container where
  name : String
  image : String
  command : Option (List String)
  env : List (String × String)
  volumeMounts : List VolumeMount
deriving DecidableEq, Repr

/-- The parts of the Kubernetes job manifest that prepare_job touches
(metadata name and namespace, the single container, the volumes section). -/
structure JobManifest where
  name : String
  namesp : String
  container : Container
  volumes : List Volume
deriving DecidableEq, Repr

/-- Modelled from the spec: the `volume_templates` module is not under src.
CEPHFS_MOUNT_PATH is the fixed conventional mount path of the shared
filesystem volume. -/
def CEPHFS_MOUNT_PATH : String := "/data"

/-- Modelled from the spec: `volume_templates.get_k8s_cephfs_volume`, the
shared CephFS volume for a namespace (not a repository mount, hence not
read-only). -/
def get_k8s_cephfs_volume (ns : String) : Volume :=
  { name := "cephfs-" ++ ns, source := .cephfs ns, readOnly := false }

/-- Modelled from the spec: `volume_templates.get_k8s_cvmfs_volume`, the
read-only volume exposing one repository mount. -/
def get_k8s_cvmfs_volume (ns repo : String) : Volume :=
  { name := "cvmfs-" ++ repo, source := .cvmfs ns repo, readOnly := true }

/-- Modelled from the spec: `volume_templates.get_cvmfs_mount_point`, the
repository's conventional mount path. -/
def get_cvmfs_mount_point (repo : String) : String := "/cvmfs/" ++ repo

/-- One entry of `volume_templates.get_k8s_secret_volumes(namespace)`: the
code reads its `secret` and `mountPath` keys. The configured secrets of the
namespace are passed to `prepare_job` as an explicit argument because the
`volume_templates` module is not under src. -/
structure SecretVolumeSpec where
  secret : String
  mountPath : String
deriving DecidableEq, Repr

/-- Modelled from the spec: the base template `resources/job_template.yml`
(not under src) has a single container with no command and empty env,
volumeMounts and volumes sections. -/
def job_template : JobManifest :=
  { name := "", namesp := "",
    container := { name := "", image := "", command := none, env := [], volumeMounts := [] },
    volumes := [] }

/-- Models `shlex.split` for whitespace-separated command strings (quoting is
not exercised by any claim). -/
def shlex_split (cmd : String) : List String :=
  (cmd.splitOn " ").filter (fun t => ¬ t = "")

/-- k8s.py `add_shared_volume`: append the shared CephFS mount to the
container and the corresponding volume to the spec. -/
def add_shared_volume (job : JobManifest) (ns : String) : JobManifest :=
  { job with
      container := { job.container with
        volumeMounts := job.container.volumeMounts
          ++ [{ name := (get_k8s_cephfs_volume ns).name, mountPath := CEPHFS_MOUNT_PATH }] },
      volumes := job.volumes ++ [get_k8s_cephfs_volume ns] }

/-- The `for var, value in env_vars.items()` loop of prepare_job. -/
def addEnvVars (vars : List (String × String)) (job : JobManifest) : JobManifest :=
  match vars with
  | [] => job
  | v :: rest =>
    addEnvVars rest
      { job with container := { job.container with env := job.container.env ++ [v] } }

/-- The `for num, repo in enumerate(cvmfs_repos)` loop of prepare_job: each
repository volume gets its name suffixed by the running index and is mounted
at the repository's conventional path. -/
def addCvmfsVolumes (ns : String) (num : Nat) (repos : List String)
    (job : JobManifest) : JobManifest :=
  match repos with
  | [] => job
  | repo :: rest =>
    addCvmfsVolumes ns (num + 1) rest
      { job with
          container := { job.container with
            volumeMounts := job.container.volumeMounts
              ++ [{ name := (get_k8s_cvmfs_volume ns repo).name ++ "-" ++ toString num,
                    mountPath := get_cvmfs_mount_point repo }] },
          volumes := job.volumes
            ++ [{ get_k8s_cvmfs_volume ns repo with
                  name := (get_k8s_cvmfs_volume ns repo).name ++ "-" ++ toString num }] }

/-- The `for num, secret in enumerate(get_k8s_secret_volumes(namespace))`
loop of prepare_job: secret volumes and mounts are named by index. -/
def addSecretVolumes (num : Nat) (secrets : List SecretVolumeSpec)
    (job : JobManifest) : JobManifest :=
  match secrets with
  | [] => job
  | s :: rest =>
    addSecretVolumes (num + 1) rest
      { job with
          container := { job.container with
            volumeMounts := job.container.volumeMounts
              ++ [{ name := "secret-" ++ toString num, mountPath := s.mountPath }] },
          volumes := job.volumes
            ++ [{ name := "secret-" ++ toString num, source := .secretData s.secret,
                  readOnly := false }] }

/-- The `if cmd:` block of prepare_job: a truthy command string is tokenized
shell-style into the container command; None or an empty string (falsy)
leaves the template's default entrypoint. -/
def applyCmd (cmd : Option String) (job : JobManifest) : JobManifest :=
  match cmd with
  | some c =>
    if c = "" then job
    else { job with container := { job.container with command := some (shlex_split c) } }
  | none => job

/-- k8s.py `prepare_job`: start from the base template, set names, namespace
and image, tokenize a truthy command, append the environment entries, then
the shared volume if requested, then one indexed read-only volume per
repository mount, then one indexed volume per configured secret if secrets
are to be attached. `namespaceSecrets` stands for
`volume_templates.get_k8s_secret_volumes(namespace)`. -/
def prepare_job (job_id docker_img : String) (cmd : Option String)
    (cvmfs_repos : List String) (env_vars : List (String × String)) (ns : String)
    (shared_file_system : Bool) (scopesecrets : Bool)
    (namespaceSecrets : List SecretVolumeSpec) : JobManifest :=
  let job := { job_template with
    name := job_id, namesp := ns,
    container := { job_template.container with name := job_id, image := docker_img } }
  let job := applyCmd cmd job
  let job := addEnvVars env_vars job
  let job := if shared_file_system then add_shared_volume job ns else job
  let job := addCvmfsVolumes ns 0 cvmfs_repos job
  let job := if scopesecrets then addSecretVolumes 0 namespaceSecrets job else job
  job

/-! ## Derived declarative form of the builder loops -/

/-- The volumes the cvmfs loop appends, starting at index `num`. -/
def cvmfsVolumeList (ns : String) (num : Nat) : List String → List Volume
  | [] => []
  | repo :: rest =>
    { get_k8s_cvmfs_volume ns repo with
      name := (get_k8s_cvmfs_volume ns repo).name ++ "-" ++ toString num }
      :: cvmfsVolumeList ns (num + 1) rest

/-- The volume mounts the cvmfs loop appends, starting at index `num`. -/
def cvmfsMountList (ns : String) (num : Nat) : List String → List VolumeMount
  | [] => []
  | repo :: rest =>
    { name := (get_k8s_cvmfs_volume ns repo).name ++ "-" ++ toString num,
      mountPath := get_cvmfs_mount_point repo }
      :: cvmfsMountList ns (num + 1) rest

/-- The volumes the secret loop appends, starting at index `num`. -/
def secretVolumeList (num : Nat) : List SecretVolumeSpec → List Volume
  | [] => []
  | s :: rest =>
    { name := "secret-" ++ toString num, source := .secretData s.secret, readOnly := false }
      :: secretVolumeList (num + 1) rest

/-- The volume mounts the secret loop appends, starting at index `num`. -/
def secretMountList (num : Nat) : List SecretVolumeSpec → List VolumeMount
  | [] => []
  | s :: rest =>
    { name := "secret-" ++ toString num, mountPath := s.mountPath }
      :: secretMountList (num + 1) rest

theorem addEnvVars_volumes (vars : List (String × String)) :
    ∀ j : JobManifest, (addEnvVars vars j).volumes = j.volumes := by
  induction vars with
  | nil => intro j; rfl
  | cons v rest ih => intro j; simp [addEnvVars, ih]

theorem addEnvVars_mounts (vars : List (String × String)) :
    ∀ j : JobManifest, (addEnvVars vars j).container.volumeMounts = j.container.volumeMounts := by
  induction vars with
  | nil => intro j; rfl
  | cons v rest ih => intro j; simp [addEnvVars, ih]

theorem addEnvVars_command (vars : List (String × String)) :
    ∀ j : JobManifest, (addEnvVars vars j).container.command = j.container.command := by
  induction vars with
  | nil => intro j; rfl
  | cons v rest ih => intro j; simp [addEnvVars, ih]

theorem addEnvVars_env (vars : List (String × String)) :
    ∀ j : JobManifest, (addEnvVars vars j).container.env = j.container.env ++ vars := by
  induction vars with
  | nil => intro j; simp [addEnvVars]
  | cons v rest ih => intro j; simp [addEnvVars, ih]

theorem addCvmfsVolumes_volumes (ns : String) (repos : List String) :
    ∀ (num : Nat) (j : JobManifest),
      (addCvmfsVolumes ns num repos j).volumes = j.volumes ++ cvmfsVolumeList ns num repos := by
  induction repos with
  | nil => intro num j; simp [addCvmfsVolumes, cvmfsVolumeList]
  | cons repo rest ih => intro num j; simp [addCvmfsVolumes, cvmfsVolumeList, ih]

theorem addCvmfsVolumes_mounts (ns : String) (repos : List String) :
    ∀ (num : Nat) (j : JobManifest),
      (addCvmfsVolumes ns num repos j).container.volumeMounts
        = j.container.volumeMounts ++ cvmfsMountList ns num repos := by
  induction repos with
  | nil => intro num j; simp [addCvmfsVolumes, cvmfsMountList]
  | cons repo rest ih => intro num j; simp [addCvmfsVolumes, cvmfsMountList, ih]

theorem addCvmfsVolumes_command (ns : String) (repos : List String) :
    ∀ (num : Nat) (j : JobManifest),
      (addCvmfsVolumes ns num repos j).container.command = j.container.command := by
  induction repos with
  | nil => intro num j; rfl
  | cons repo rest ih => intro num j; simp [addCvmfsVolumes, ih]

theorem addCvmfsVolumes_env (ns : String) (repos : List String) :
    ∀ (num : Nat) (j : JobManifest),
      (addCvmfsVolumes ns num repos j).container.env = j.container.env := by
  induction repos with
  | nil => intro num j; rfl
  | cons repo rest ih => intro num j; simp [addCvmfsVolumes, ih]

theorem addSecretVolumes_volumes (secrets : List SecretVolumeSpec) :
    ∀ (num : Nat) (j : JobManifest),
      (addSecretVolumes num secrets j).volumes = j.volumes ++ secretVolumeList num secrets := by
  induction secrets with
  | nil => intro num j; simp [addSecretVolumes, secretVolumeList]
  | cons s rest ih => intro num j; simp [addSecretVolumes, secretVolumeList, ih]

theorem addSecretVolumes_mounts (secrets : List SecretVolumeSpec) :
    ∀ (num : Nat) (j : JobManifest),
      (addSecretVolumes num secrets j).container.volumeMounts
        = j.container.volumeMounts ++ secretMountList num secrets := by
  induction secrets with
  | nil => intro num j; simp [addSecretVolumes, secretMountList]
  | cons s rest ih => intro num j; simp [addSecretVolumes, secretMountList, ih]

theorem addSecretVolumes_command (secrets : List SecretVolumeSpec) :
    ∀ (num : Nat) (j : JobManifest),
      (addSecretVolumes num secrets j).container.command = j.container.command := by
  induction secrets with
  | nil => intro num j; rfl
  | cons s rest ih => intro num j; simp [addSecretVolumes, ih]

theorem addSecretVolumes_env (secrets : List SecretVolumeSpec) :
    ∀ (num : Nat) (j : JobManifest),
      (addSecretVolumes num secrets j).container.env = j.container.env := by
  induction secrets with
  | nil => intro num j; rfl
  | cons s rest ih => intro num j; simp [addSecretVolumes, ih]

theorem applyCmd_volumes (cmd : Option String) (j : JobManifest) :
    (applyCmd cmd j).volumes = j.volumes := by
  cases cmd with
  | none => rfl
  | some c => by_cases hc : c = "" <;> simp [applyCmd, hc]

theorem applyCmd_mounts (cmd : Option String) (j : JobManifest) :
    (applyCmd cmd j).container.volumeMounts = j.container.volumeMounts := by
  cases cmd with
  | none => rfl
  | some c => by_cases hc : c = "" <;> simp [applyCmd, hc]

theorem applyCmd_env (cmd : Option String) (j : JobManifest) :
    (applyCmd cmd j).container.env = j.container.env := by
  cases cmd with
  | none => rfl
  | some c => by_cases hc : c = "" <;> simp [applyCmd, hc]

theorem applyCmd_command_empty (cmd : Option String) (j : JobManifest)
    (h : cmd = none ∨ cmd = some "") :
    (applyCmd cmd j).container.command = j.container.command := by
  rcases h with h | h <;> subst h <;> simp [applyCmd]

/-- The volumes section of the built spec: the shared volume if requested,
then one indexed repository volume per mount, then the indexed secret
volumes if requested. -/
theorem prepare_job_volumes_eq (job_id docker_img : String) (cmd : Option String)
    (cvmfs_repos : List String) (env_vars : List (String × String)) (ns : String)
    (sfs ss : Bool) (secrets : List SecretVolumeSpec) :
    (prepare_job job_id docker_img cmd cvmfs_repos env_vars ns sfs ss secrets).volumes
      = (if sfs then [get_k8s_cephfs_volume ns] else [])
        ++ cvmfsVolumeList ns 0 cvmfs_repos
        ++ (if ss then secretVolumeList 0 secrets else []) := by
  simp only [prepare_job]
  cases sfs <;> cases ss <;>
    simp [addSecretVolumes_volumes, addCvmfsVolumes_volumes, add_shared_volume,
      addEnvVars_volumes, applyCmd_volumes, job_template]

/-- The volumeMounts section of the built spec, in the same order. -/
theorem prepare_job_mounts_eq (job_id docker_img : String) (cmd : Option String)
    (cvmfs_repos : List String) (env_vars : List (String × String)) (ns : String)
    (sfs ss : Bool) (secrets : List SecretVolumeSpec) :
    (prepare_job job_id docker_img cmd cvmfs_repos env_vars ns sfs ss secrets).container.volumeMounts
      = (if sfs then
          [{ name := (get_k8s_cephfs_volume ns).name, mountPath := CEPHFS_MOUNT_PATH }] else [])
        ++ cvmfsMountList ns 0 cvmfs_repos
        ++ (if ss then secretMountList 0 secrets else []) := by
  simp only [prepare_job]
  cases sfs <;> cases ss <;>
    simp [addSecretVolumes_mounts, addCvmfsVolumes_mounts, add_shared_volume,
      addEnvVars_mounts, applyCmd_mounts, job_template]

/-- The environment of the built spec is exactly the given mapping. -/
theorem prepare_job_env_eq (job_id docker_img : String) (cmd : Option String)
    (cvmfs_repos : List String) (env_vars : List (String × String)) (ns : String)
    (sfs ss : Bool) (secrets : List SecretVolumeSpec) :
    (prepare_job job_id docker_img cmd cvmfs_repos env_vars ns sfs ss secrets).container.env
      = env_vars := by
  simp only [prepare_job]
  cases sfs <;> cases ss <;>
    simp [addSecretVolumes_env, addCvmfsVolumes_env, add_shared_volume,
      addEnvVars_env, applyCmd_env, job_template]

/-- A falsy command (absent or empty) leaves the command section untouched. -/
theorem prepare_job_command_empty (job_id docker_img : String) (cmd : Option String)
    (cvmfs_repos : List String) (env_vars : List (String × String)) (ns : String)
    (sfs ss : Bool) (secrets : List SecretVolumeSpec) (h : cmd = none ∨ cmd = some "") :
    (prepare_job job_id docker_img cmd cvmfs_repos env_vars ns sfs ss secrets).container.command
      = none := by
  simp only [prepare_job]
  cases sfs <;> cases ss <;>
    simp [addSecretVolumes_command, addCvmfsVolumes_command, add_shared_volume,
      addEnvVars_command, applyCmd_command_empty _ _ h, job_template]

/-- Predicate picking out repository (cvmfs) volumes. -/
def isCvmfsVolume (v : Volume) : Bool :=
  match v.source with
  | .cvmfs _ _ => true
  | _ => false

/-- Predicate picking out the shared-filesystem (cephfs) volume. -/
def isCephfsVolume (v : Volume) : Bool :=
  match v.source with
  | .cephfs _ => true
  | _ => false

/-- Predicate picking out secret volumes. -/
def isSecretVolume (v : Volume) : Bool :=
  match v.source with
  | .secretData _ => true
  | _ => false

theorem cvmfsVolumeList_length (ns : String) :
    ∀ (num : Nat) (repos : List String),
      (cvmfsVolumeList ns num repos).length = repos.length := by
  intro num repos
  induction repos generalizing num with
  | nil => rfl
  | cons repo rest ih => simp [cvmfsVolumeList, ih]

theorem cvmfsMountList_length (ns : String) :
    ∀ (num : Nat) (repos : List String),
      (cvmfsMountList ns num repos).length = repos.length := by
  intro num repos
  induction repos generalizing num with
  | nil => rfl
  | cons repo rest ih => simp [cvmfsMountList, ih]

theorem secretVolumeList_length :
    ∀ (num : Nat) (secrets : List SecretVolumeSpec),
      (secretVolumeList num secrets).length = secrets.length := by
  intro num secrets
  induction secrets generalizing num with
  | nil => rfl
  | cons s rest ih => simp [secretVolumeList, ih]

theorem secretMountList_length :
    ∀ (num : Nat) (secrets : List SecretVolumeSpec),
      (secretMountList num secrets).length = secrets.length := by
  intro num secrets
  induction secrets generalizing num with
  | nil => rfl
  | cons s rest ih => simp [secretMountList, ih]

theorem cvmfsVolumeList_get (ns : String) (repos : List String) :
    ∀ (num i : Nat) (repo : String), repos.get? i = some repo →
      (cvmfsVolumeList ns num repos).get? i
        = some { get_k8s_cvmfs_volume ns repo with
                 name := (get_k8s_cvmfs_volume ns repo).name ++ "-" ++ toString (num + i) } := by
  induction repos with
  | nil => intro num i repo h; simp [List.get?] at h
  | cons r rest ih =>
    intro num i repo h
    cases i with
    | zero =>
      simp only [List.get?] at h
      cases h
      simp [cvmfsVolumeList]
    | succ i =>
      simp only [List.get?] at h
      have hrec := ih (num + 1) i repo h
      have harith : num + 1 + i = num + (i + 1) := by omega
      rw [harith] at hrec
      simpa [cvmfsVolumeList] using hrec

theorem cvmfsMountList_get (ns : String) (repos : List String) :
    ∀ (num i : Nat) (repo : String), repos.get? i = some repo →
      (cvmfsMountList ns num repos).get? i
        = some { name := (get_k8s_cvmfs_volume ns repo).name ++ "-" ++ toString (num + i),
                 mountPath := get_cvmfs_mount_point repo } := by
  induction repos with
  | nil => intro num i repo h; simp [List.get?] at h
  | cons r rest ih =>
    intro num i repo h
    cases i with
    | zero =>
      simp only [List.get?] at h
      cases h
      simp [cvmfsMountList]
    | succ i =>
      simp only [List.get?] at h
      have hrec := ih (num + 1) i repo h
      have harith : num + 1 + i = num + (i + 1) := by omega
      rw [harith] at hrec
      simpa [cvmfsMountList] using hrec

theorem secretVolumeList_get (secrets : List SecretVolumeSpec) :
    ∀ (num j : Nat) (s : SecretVolumeSpec), secrets.get? j = some s →
      (secretVolumeList num secrets).get? j
        = some { name := "secret-" ++ toString (num + j), source := .secretData s.secret,
                 readOnly := false } := by
  induction secrets with
  | nil => intro num j s h; simp [List.get?] at h
  | cons x rest ih =>
    intro num j s h
    cases j with
    | zero =>
      simp only [List.get?] at h
      cases h
      simp [secretVolumeList]
    | succ j =>
      simp only [List.get?] at h
      have hrec := ih (num + 1) j s h
      have harith : num + 1 + j = num + (j + 1) := by omega
      rw [harith] at hrec
      simpa [secretVolumeList] using hrec

theorem secretMountList_get (secrets : List SecretVolumeSpec) :
    ∀ (num j : Nat) (s : SecretVolumeSpec), secrets.get? j = some s →
      (secretMountList num secrets).get? j
        = some { name := "secret-" ++ toString (num + j), mountPath := s.mountPath } := by
  induction secrets with
  | nil => intro num j s h; simp [List.get?] at h
  | cons x rest ih =>
    intro num j s h
    cases j with
    | zero =>
      simp only [List.get?] at h
      cases h
      simp [secretMountList]
    | succ j =>
      simp only [List.get?] at h
      have hrec := ih (num + 1) j s h
      have harith : num + 1 + j = num + (j + 1) := by omega
      rw [harith] at hrec
      simpa [secretMountList] using hrec

theorem cvmfsVolumeList_countP (ns : String) :
    ∀ (num : Nat) (repos : List String),
      (cvmfsVolumeList ns num repos).countP isCvmfsVolume = repos.length
      ∧ (cvmfsVolumeList ns num repos).countP isCephfsVolume = 0
      ∧ (cvmfsVolumeList ns num repos).countP isSecretVolume = 0 := by
  intro num repos
  induction repos generalizing num with
  | nil => exact ⟨rfl, rfl, rfl⟩
  | cons repo rest ih =>
    obtain ⟨h₁, h₂, h₃⟩ := ih (num + 1)
    refine ⟨?_, ?_, ?_⟩ <;>
      simp [cvmfsVolumeList, List.countP_cons, h₁, h₂, h₃, isCvmfsVolume, isCephfsVolume,
        isSecretVolume, get_k8s_cvmfs_volume]

theorem secretVolumeList_countP :
    ∀ (num : Nat) (secrets : List SecretVolumeSpec),
      (secretVolumeList num secrets).countP isCvmfsVolume = 0
      ∧ (secretVolumeList num secrets).countP isCephfsVolume = 0
      ∧ (secretVolumeList num secrets).countP isSecretVolume = secrets.length := by
  intro num secrets
  induction secrets generalizing num with
  | nil => exact ⟨rfl, rfl, rfl⟩
  | cons s rest ih =>
    obtain ⟨h₁, h₂, h₃⟩ := ih (num + 1)
    refine ⟨?_, ?_, ?_⟩ <;>
      simp [secretVolumeList, List.countP_cons, h₁, h₂, h₃, isCvmfsVolume, isCephfsVolume,
        isSecretVolume]

/-- Index into the middle block of a three-block append. -/
theorem get?_append_mid {α : Type} (A B C : List α) (i : Nat) (h : i < B.length) :
    (A ++ B ++ C).get? (A.length + i) = B.get? i := by
  rw [List.get?_append (by simp only [List.length_append]; omega),
    List.get?_append_right (by omega)]
  simp

/-- Index into the last block of a three-block append. -/
theorem get?_append_last {α : Type} (A B C : List α) (j : Nat) :
    (A ++ B ++ C).get? (A.length + B.length + j) = C.get? j := by
  rw [List.get?_append_right (by simp only [List.length_append]; omega)]
  have harith : A.length + B.length + j - (A ++ B).length = j := by
    simp only [List.length_append]
    omega
  rw [harith]

/-- C7: the built spec carries exactly one indexed read-only volume and mount
per repository mount (suffix `i` in input order, at the repository's
conventional path), exactly one shared-filesystem volume and mount at the
fixed conventional path when requested, exactly one indexed secret volume and
mount per configured secret when secrets are attached, and empty command,
environment, mounts or secrets leave the corresponding section untouched. -/
theorem prepare_job_builds_expected_volumes (job_id docker_img : String)
    (cmd : Option String) (cvmfs_repos : List String) (env_vars : List (String × String))
    (ns : String) (sfs ss : Bool) (secrets : List SecretVolumeSpec) :
    ((prepare_job job_id docker_img cmd cvmfs_repos env_vars ns sfs ss secrets).volumes.length
        = (if sfs then 1 else 0) + cvmfs_repos.length + (if ss then secrets.length else 0))
    ∧ ((prepare_job job_id docker_img cmd cvmfs_repos env_vars ns sfs ss secrets).container.volumeMounts.length
        = (if sfs then 1 else 0) + cvmfs_repos.length + (if ss then secrets.length else 0))
    ∧ ((prepare_job job_id docker_img cmd cvmfs_repos env_vars ns sfs ss secrets).volumes.countP
        isCvmfsVolume = cvmfs_repos.length)
    ∧ ((prepare_job job_id docker_img cmd cvmfs_repos env_vars ns sfs ss secrets).volumes.countP
        isCephfsVolume = (if sfs then 1 else 0))
    ∧ ((prepare_job job_id docker_img cmd cvmfs_repos env_vars ns sfs ss secrets).volumes.countP
        isSecretVolume = (if ss then secrets.length else 0))
    ∧ (∀ (i : Nat) (repo : String), cvmfs_repos.get? i = some repo →
        (prepare_job job_id docker_img cmd cvmfs_repos env_vars ns sfs ss secrets).volumes.get?
            ((if sfs then 1 else 0) + i)
          = some { get_k8s_cvmfs_volume ns repo with
                   name := (get_k8s_cvmfs_volume ns repo).name ++ "-" ++ toString i }
        ∧ (prepare_job job_id docker_img cmd cvmfs_repos env_vars ns sfs ss secrets).container.volumeMounts.get?
            ((if sfs then 1 else 0) + i)
          = some { name := (get_k8s_cvmfs_volume ns repo).name ++ "-" ++ toString i,
                   mountPath := get_cvmfs_mount_point repo })
    ∧ (sfs = true →
        (prepare_job job_id docker_img cmd cvmfs_repos env_vars ns sfs ss secrets).volumes.get? 0
          = some (get_k8s_cephfs_volume ns)
        ∧ (prepare_job job_id docker_img cmd cvmfs_repos env_vars ns sfs ss secrets).container.volumeMounts.get? 0
          = some { name := (get_k8s_cephfs_volume ns).name, mountPath := CEPHFS_MOUNT_PATH })
    ∧ (ss = true → ∀ (j : Nat) (s : SecretVolumeSpec), secrets.get? j = some s →
        (prepare_job job_id docker_img cmd cvmfs_repos env_vars ns sfs ss secrets).volumes.get?
            ((if sfs then 1 else 0) + cvmfs_repos.length + j)
          = some { name := "secret-" ++ toString j, source := .secretData s.secret,
                   readOnly := false }
        ∧ (prepare_job job_id docker_img cmd cvmfs_repos env_vars ns sfs ss secrets).container.volumeMounts.get?
            ((if sfs then 1 else 0) + cvmfs_repos.length + j)
          = some { name := "secret-" ++ toString j, mountPath := s.mountPath })
    ∧ ((cmd = none ∨ cmd = some "") →
        (prepare_job job_id docker_img cmd cvmfs_repos env_vars ns sfs ss secrets).container.command
          = none)
    ∧ ((prepare_job job_id docker_img cmd cvmfs_repos env_vars ns sfs ss secrets).container.env
        = env_vars) := by
  have hV := prepare_job_volumes_eq job_id docker_img cmd cvmfs_repos env_vars ns sfs ss secrets
  have hM := prepare_job_mounts_eq job_id docker_img cmd cvmfs_repos env_vars ns sfs ss secrets
  refine ⟨?_, ?_, ?_, ?_, ?_, ?_, ?_, ?_, ?_, ?_⟩
  · rw [hV]
    cases sfs <;> cases ss <;>
      simp [cvmfsVolumeList_length, secretVolumeList_length] <;> omega
  · rw [hM]
    cases sfs <;> cases ss <;>
      simp [cvmfsMountList_length, secretMountList_length] <;> omega
  · rw [hV]
    obtain ⟨hc₁, hc₂, hc₃⟩ := cvmfsVolumeList_countP ns 0 cvmfs_repos
    obtain ⟨hs₁, hs₂, hs₃⟩ := secretVolumeList_countP 0 secrets
    cases sfs <;> cases ss <;>
      simp [List.countP_append, List.countP_cons, hc₁, hs₁, isCvmfsVolume,
        get_k8s_cephfs_volume]
  · rw [hV]
    obtain ⟨hc₁, hc₂, hc₃⟩ := cvmfsVolumeList_countP ns 0 cvmfs_repos
    obtain ⟨hs₁, hs₂, hs₃⟩ := secretVolumeList_countP 0 secrets
    cases sfs <;> cases ss <;>
      simp [List.countP_append, List.countP_cons, hc₂, hs₂, isCephfsVolume,
        get_k8s_cephfs_volume]
  · rw [hV]
    obtain ⟨hc₁, hc₂, hc₃⟩ := cvmfsVolumeList_countP ns 0 cvmfs_repos
    obtain ⟨hs₁, hs₂, hs₃⟩ := secretVolumeList_countP 0 secrets
    cases sfs <;> cases ss <;>
      simp [List.countP_append, List.countP_cons, hc₃, hs₃, isSecretVolume,
        get_k8s_cephfs_volume]
  · intro i repo hi
    have hlt : i < (cvmfsVolumeList ns 0 cvmfs_repos).length := by
      rw [cvmfsVolumeList_length]
      obtain ⟨hlt, _⟩ := List.get?_eq_some.mp hi
      exact hlt
    have hltM : i < (cvmfsMountList ns 0 cvmfs_repos).length := by
      rw [cvmfsMountList_length]
      obtain ⟨hlt, _⟩ := List.get?_eq_some.mp hi
      exact hlt
    constructor
    · rw [hV]
      rw [show (if sfs = true then 1 else 0) + i
          = (if sfs = true then [get_k8s_cephfs_volume ns] else []).length + i from by
        cases sfs <;> rfl]
      rw [get?_append_mid _ _ _ i hlt]
      have := cvmfsVolumeList_get ns cvmfs_repos 0 i repo hi
      rw [Nat.zero_add] at this
      exact this
    · rw [hM]
      rw [show (if sfs = true then 1 else 0) + i
          = (if sfs = true then
              [({ name := (get_k8s_cephfs_volume ns).name,
                  mountPath := CEPHFS_MOUNT_PATH } : VolumeMount)] else []).length + i from by
        cases sfs <;> rfl]
      rw [get?_append_mid _ _ _ i hltM]
      have := cvmfsMountList_get ns cvmfs_repos 0 i repo hi
      rw [Nat.zero_add] at this
      exact this
  · intro hsfs
    subst hsfs
    rw [hV, hM]
    constructor
    · simp [List.get?]
    · simp [List.get?]
  · intro hss j s hj
    subst hss
    constructor
    · rw [hV]
      rw [show (if sfs = true then 1 else 0) + cvmfs_repos.length + j
          = (if sfs = true then [get_k8s_cephfs_volume ns] else []).length
            + (cvmfsVolumeList ns 0 cvmfs_repos).length + j from by
        rw [cvmfsVolumeList_length]
        cases sfs <;> rfl]
      rw [get?_append_last]
      simp only [if_pos rfl]
      have := secretVolumeList_get secrets 0 j s hj
      rw [Nat.zero_add] at this
      exact this
    · rw [hM]
      rw [show (if sfs = true then 1 else 0) + cvmfs_repos.length + j
          = (if sfs = true then
              [({ name := (get_k8s_cephfs_volume ns).name,
                  mountPath := CEPHFS_MOUNT_PATH } : VolumeMount)] else []).length
            + (cvmfsMountList ns 0 cvmfs_repos).length + j from by
        rw [cvmfsMountList_length]
        cases sfs <;> rfl]
      rw [get?_append_last]
      simp only [if_pos rfl]
      have := secretMountList_get secrets 0 j s hj
      rw [Nat.zero_add] at this
      exact this
  · intro h
    exact prepare_job_command_empty job_id docker_img cmd cvmfs_repos env_vars ns sfs ss secrets h
  · exact prepare_job_env_eq job_id docker_img cmd cvmfs_repos env_vars ns sfs ss secrets

theorem prepare_job_builds_expected_volumes_witness :
    (prepare_job "job-1" "busybox" (some "sleep 1000") ["atlas-condb", "atlas"]
        [("VAR", "1")] "atlas" true true
        [{ secret := "cred", mountPath := "/etc/reana/secrets" }]).volumes.length = 4
    ∧ (prepare_job "job-1" "busybox" (some "sleep 1000") ["atlas-condb", "atlas"]
        [("VAR", "1")] "atlas" true true
        [{ secret := "cred", mountPath := "/etc/reana/secrets" }]).volumes.get? 1
      = some { name := "cvmfs-atlas-condb-0", source := .cvmfs "atlas" "atlas-condb",
               readOnly := true }
    ∧ (prepare_job "job-1" "busybox" (some "sleep 1000") ["atlas-condb", "atlas"]
        [("VAR", "1")] "atlas" true true
        [{ secret := "cred", mountPath := "/etc/reana/secrets" }]).container.volumeMounts.get? 3
      = some { name := "secret-0", mountPath := "/etc/reana/secrets" } := by
  have h := prepare_job_builds_expected_volumes "job-1" "busybox" (some "sleep 1000")
    ["atlas-condb", "atlas"] [("VAR", "1")] "atlas" true true
    [{ secret := "cred", mountPath := "/etc/reana/secrets" }]
  refine ⟨?_, ?_, ?_⟩
  · rw [h.1]
    decide
  · exact (h.2.2.2.2.2.1 0 "atlas-condb" (by decide)).1
  · exact (h.2.2.2.2.2.2.2.1 rfl 0 { secret := "cred", mountPath := "/etc/reana/secrets" }
      (by decide)).2
